import Mathlib

/-!
Verification of the BLE prober scanner (src/scanner.py) and of the web
server's radio-lock discipline (src/web_server.py), as shallow Lean
embeddings.  Machine-level collaborators (the aioble radio, the status
LED, `gc`, `print`, log writing and the fixed `asyncio.sleep` delays)
are effect-free from the point of view of the properties below and are
dropped; everything that decides a result value, a raised exception, an
attempt count or a resource release is embedded faithfully, statement
by statement.
-/

namespace BleProber

/-! ## Exceptions

Python exception classes that the scanner's handlers distinguish.
`osError` carries `errno`; `otherError` stands for any `Exception`
subclass that is none of the named ones. -/

inductive ExcKind where
  | typeError
  | attributeError
  | valueError
  | osError (errno : Nat)
  | timeoutError
  | otherError
  deriving DecidableEq, Repr

/-! ## Scan side (scanner.py lines 46-95)

An advertisement report as delivered by `aioble.scan`:
`result.device.addr_hex()` (mac), `result.rssi`, `result.name()`
(`None` when absent) and `result.connectable`. -/

structure Report where
  mac : String
  rssi : Int
  name : Option String
  connectable : Bool
  deriving DecidableEq, Repr

/-- An entry of the module-global `found_devices` list: the dict
`{"name": ..., "mac": ..., "rssi": ..., "device_obj": ...}` built at
scanner.py line 84 (the `device_obj` radio handle carries no data the
scan logic reads back, so it is not part of the record). -/
structure Device where
  name : String
  mac : String
  rssi : Int
  deriving DecidableEq, Repr

/-- scanner.py line 65: `device_name = raw_name if raw_name else "Unknown"`.
Both `None` and the falsy empty string fall back to the sentinel. -/
def effName (r : Report) : String :=
  match r.name with
  | some s => if s = "" then "Unknown" else s
  | none => "Unknown"

/-- scanner.py lines 76-80: the matched dict is mutated in place — the
name is upgraded only when the stored name is the sentinel and the new
report carries a real name, and the rssi is always refreshed. -/
def updDev (r : Report) (d : Device) : Device :=
  ⟨if d.name = "Unknown" ∧ effName r ≠ "Unknown" then effName r else d.name,
   d.mac, r.rssi⟩

/-- scanner.py lines 70-74: the linear search finds the first dict with
a matching mac; only that one is mutated. -/
def updateFirst (r : Report) : List Device → List Device
  | [] => []
  | d :: ds => if d.mac = r.mac then updDev r d :: ds else d :: updateFirst r ds

/-- One iteration of the `async for result in scanner` body
(scanner.py lines 60-89), parameterised by `config.FILTER_NAMED_ONLY`
and `config.RSSI_THRESHOLD`.  Line 68 (`... : pass`) is a no-op and has
no counterpart here. -/
def scanStep (namedOnly : Bool) (th : Int) (devs : List Device) (r : Report) :
    List Device :=
  if r.rssi < th then devs
  else if r.connectable then
    if devs.any (fun d => d.mac == r.mac) then updateFirst r devs
    else if namedOnly ∧ effName r = "Unknown" then devs
    else devs ++ [⟨effName r, r.mac, r.rssi⟩]
  else devs

/-- The whole report stream folded from the cleared table
(scanner.py line 56 `found_devices.clear()`). -/
def scanFold (namedOnly : Bool) (th : Int) (rs : List Report) : List Device :=
  rs.foldl (scanStep namedOnly th) []

/-- A report the scan body accepts: at or above threshold and
connectable (scanner.py lines 61 and 63). -/
def isQual (th : Int) (r : Report) : Bool :=
  decide (th ≤ r.rssi) && r.connectable

/-- The rssi of the last accepted report carrying a given mac. -/
def lastQualRssi (th : Int) (m : String) (rs : List Report) : Option Int :=
  ((rs.filter (fun r => isQual th r && r.mac == m)).getLast?).map (fun r => r.rssi)

/-! ### run_scan as a whole (C7)

`run_scan` takes no parameters in the source (it reads `config`), has
no `return` statement — its Python value is `None` — and wraps the
stream loop in `try/except Exception` (line 90), so a scan-channel
error is printed and swallowed, never re-raised.  `rs` is the list of
reports the radio delivered before the stream either completed or
raised; `err` records the optional terminating error. -/

structure ScanOutcome where
  retVal : Option (List Device)
  found : List Device
  raised : Bool
  deriving DecidableEq, Repr

inductive ScanEnd where
  | completed
  | errorCaught (e : ExcKind)
  deriving DecidableEq, Repr

/-- The scan loop with its termination mode (scanner.py lines 58-91). -/
def runScanGo (namedOnly : Bool) (th : Int) (st : List Device) :
    List Report → Option ExcKind → List Device × ScanEnd
  | [], none => (st, ScanEnd.completed)
  | [], some e => (st, ScanEnd.errorCaught e)
  | r :: rs, err => runScanGo namedOnly th (scanStep namedOnly th st r) rs err

/-- scanner.py lines 48-95: the function returns `None`; the devices
live in the module-global `found_devices`; every `Exception` from the
scan channel is caught at line 90. -/
def run_scan (namedOnly : Bool) (th : Int) (rs : List Report)
    (err : Option ExcKind) : ScanOutcome :=
  ⟨none, (runScanGo namedOnly th [] rs err).1, false⟩

/-! ## UUID registry and property flags (scanner.py lines 34-44, 97-101) -/

def UUID_NAMES : List (String × String) :=
  [("0x1800", "Generic Access"),
   ("0x1801", "Generic Attribute"),
   ("0x180a", "Device Information"),
   ("0x180f", "Battery Service"),
   ("0x180d", "Heart Rate"),
   ("0x1815", "Automation IO"),
   ("0x1809", "Health Thermometer"),
   ("0xffe0", "HM-10 Serial (Proprietary)"),
   ("0xfebe", "Bose Proprietary")]

/-- scanner.py lines 97-101.  The argument is `str(uuid_obj)` for a
non-`None` uuid, `none` for `None`. -/
def resolve_uuid : Option String → String
  | none => "Unknown (None)"
  | some s =>
    match UUID_NAMES.lookup s with
    | some n => s ++ " (" ++ n ++ ")"
    | none => s

/-- MicroPython `bluetooth.FLAG_READ`. -/
def FLAG_READ : Nat := 2
/-- MicroPython `bluetooth.FLAG_WRITE`. -/
def FLAG_WRITE : Nat := 8
/-- MicroPython `bluetooth.FLAG_NOTIFY`. -/
def FLAG_NOTIFY : Nat := 16

/-- scanner.py lines 201-204: the `props` list is built by three `if`s
in source order, so the symbols always appear in the order R, W, N. -/
def propsOf (p : Nat) : List String :=
  (if p &&& FLAG_READ ≠ 0 then ["R"] else [])
    ++ (if p &&& FLAG_WRITE ≠ 0 then ["W"] else [])
    ++ (if p &&& FLAG_NOTIFY ≠ 0 then ["N"] else [])

/-! ## GATT enumeration (scanner.py lines 186-213)

A characteristic entry as the inner `async for` body sees it: either a
falsy object, an object whose `.uuid` is `None`, a well-formed object
(its uuid string and property bits), or an object whose field access
raises.  A service entry likewise, and a well-formed service carries
its characteristic stream, which may itself end in an iterator error. -/

inductive CharEntry where
  | falsy
  | noneUuid
  | good (uuid : String) (properties : Nat)
  | raises (e : ExcKind)
  deriving DecidableEq, Repr

inductive ServiceEntry where
  | falsy
  | noneUuid
  | good (uuid : String) (chars : List CharEntry) (charErr : Option ExcKind)
  | raises (e : ExcKind)
  deriving DecidableEq, Repr

/-- The services stream: the entries the iterator yields, then an
optional error the iterator raises (an empty entry list with an error
is a peer whose whole service table is unreadable). -/
structure GattStream where
  services : List ServiceEntry
  tailErr : Option ExcKind
  deriving DecidableEq, Repr

structure CharRec where
  uuid : String
  props : List String
  deriving DecidableEq, Repr

structure SvcRec where
  name : String
  chars : List CharRec
  deriving DecidableEq, Repr

/-- A Python dict (here `services_dict`) as an insertion-ordered
association list. -/
abbrev SvcDict := List (String × SvcRec)

/-- Python dict assignment `d[k] = v`: replaces in place when the key
exists (keeping its position), appends otherwise. -/
def dictInsert (d : SvcDict) (k : String) (v : SvcRec) : SvcDict :=
  if d.any (fun p => p.1 == k) then
    d.map (fun p => if p.1 = k then (p.1, v) else p)
  else d ++ [(k, v)]

/-- scanner.py line 205: `services_dict[s_uuid]["chars"].append(...)`. -/
def dictAppendChar (d : SvcDict) (k : String) (c : CharRec) : SvcDict :=
  d.map (fun p => if p.1 = k then (p.1, ⟨p.2.name, p.2.chars ++ [c]⟩) else p)

/-- One characteristic entry through the body at scanner.py lines
198-206: falsy or `None`-uuid entries are skipped by the guard at line
199, any raising entry by the bare `except: continue` at line 206. -/
def charRec : CharEntry → Option CharRec
  | CharEntry.good u p => some ⟨u, propsOf p⟩
  | _ => none

/-- The inner `async for char` loop (scanner.py lines 197-206),
threading `services_dict`. -/
def procChars (d : SvcDict) (k : String) : List CharEntry → SvcDict
  | [] => d
  | c :: cs =>
    match charRec c with
    | some r => procChars (dictAppendChar d k r) k cs
    | none => procChars d k cs

/-- Exception kinds the per-service handler at scanner.py line 207
(`except (TypeError, AttributeError, ValueError)`) catches. -/
def caughtPerService : ExcKind → Bool
  | ExcKind.typeError => true
  | ExcKind.attributeError => true
  | ExcKind.valueError => true
  | _ => false

/-- The `async for service` loop (scanner.py lines 189-209).  A falsy
or `None`-uuid service is skipped by line 191; a service raising one of
the three kinds caught at line 207 is skipped and iteration continues;
any other exception escapes to the handlers at lines 210-213, which
stop the walk and keep the dict accumulated so far (they never
re-raise).  An error from the stream itself (mid-iteration or a
characteristic-stream error) reaches the same handlers, so it too ends
the walk with the dict kept. -/
def enumSvcs (d : SvcDict) : List ServiceEntry → SvcDict
  | [] => d
  | s :: rest =>
    match s with
    | ServiceEntry.falsy => enumSvcs d rest
    | ServiceEntry.noneUuid => enumSvcs d rest
    | ServiceEntry.raises e =>
      if caughtPerService e then enumSvcs d rest else d
    | ServiceEntry.good u cs cerr =>
      let d2 := procChars (dictInsert d u ⟨resolve_uuid (some u), []⟩) u cs
      match cerr with
      | none => enumSvcs d2 rest
      | some e => if caughtPerService e then enumSvcs d2 rest else d2

/-- scanner.py lines 188-213 as a value: the enumeration never raises —
whatever the stream does, the handlers at lines 207 and 210-213 leave
`services_dict` with what was accumulated (in particular the stream's
terminating error, `g.tailErr`, never changes the result). -/
def enumerate (g : GattStream) : SvcDict := enumSvcs [] g.services

/-! ## Probe orchestration (scanner.py lines 124-232) -/

/-- Outcome of one `target_device.connect(timeout_ms=10000)` call. -/
inductive ConnResult where
  | success
  | osErr (errno : Nat)
  | timeout
  deriving DecidableEq, Repr

inductive ConnLoopOut where
  | connected
  | fellThrough
  | errOS (errno : Nat)
  | errTimeout
  deriving DecidableEq, Repr

/-- The retry loop at scanner.py lines 154-181, with `max_retries = 2`:
`for attempt in range(max_retries)`.  `conn i` is the outcome of the
attempt with index `i`; the second component counts the connect calls
made.  A transient errno (107 or 22) always `continue`s — on the last
iteration this falls out of the loop with no connection
(`fellThrough`); a non-transient `OSError` or a timeout retries only
while `attempt < max_retries - 1` and otherwise re-raises. -/
def connLoop (conn : Nat → ConnResult) : Nat → Nat → ConnLoopOut × Nat
  | _, 0 => (ConnLoopOut.fellThrough, 0)
  | i, rem + 1 =>
    match conn i with
    | ConnResult.success => (ConnLoopOut.connected, 1)
    | ConnResult.osErr e =>
      if e = 107 ∨ e = 22 then
        ((connLoop conn (i + 1) rem).1, (connLoop conn (i + 1) rem).2 + 1)
      else if 0 < rem then
        ((connLoop conn (i + 1) rem).1, (connLoop conn (i + 1) rem).2 + 1)
      else (ConnLoopOut.errOS e, 1)
    | ConnResult.timeout =>
      if 0 < rem then
        ((connLoop conn (i + 1) rem).1, (connLoop conn (i + 1) rem).2 + 1)
      else (ConnLoopOut.errTimeout, 1)

/-- The observable events of one `probe_device` call, in program
order.  `attempt` is a connect call; `returned`/`raised*` are the
terminal control transfers out of the function. -/
inductive Event where
  | attempt
  | connected
  | disconnected
  | raisedValue
  | raisedOS (errno : Nat)
  | raisedTimeout
  | raisedEnum (e : ExcKind)
  | returned (d : SvcDict)
  deriving DecidableEq, Repr

def isTerminal : Event → Bool
  | Event.returned _ => true
  | Event.raisedValue => true
  | Event.raisedOS _ => true
  | Event.raisedTimeout => true
  | Event.raisedEnum _ => true
  | _ => false

def countEvt (p : Event → Bool) (l : List Event) : Nat := l.countP p

def isAttempt : Event → Bool
  | Event.attempt => true
  | _ => false

def isConnectedEvt : Event → Bool
  | Event.connected => true
  | _ => false

def isDisconnectedEvt : Event → Bool
  | Event.disconnected => true
  | _ => false

/-- The tail of `probe_device` (scanner.py lines 186-232): the outer
`try ... except Exception ... finally` around enumeration and logging.
The `finally` at line 222 disconnects exactly when a connection object
was obtained, and it runs before a pending exception propagates, so a
re-raise (line 221) is always preceded by the release. -/
def orchestrate (acquired : Bool) (res : Except ExcKind SvcDict) : List Event :=
  match res with
  | Except.ok d =>
    (if acquired then [Event.disconnected] else []) ++ [Event.returned d]
  | Except.error e =>
    (if acquired then [Event.disconnected] else []) ++ [Event.raisedEnum e]

/-- scanner.py lines 124-232.  `found` is `found_devices`; `blindOk`
tells whether the blind `aioble.Device(...)` construction at line 146
succeeds for this address (its bare `except` raises
`ValueError("Invalid Address")` otherwise); `conn` gives each connect
attempt's outcome; `g` is what the peer serves once connected.  When
the retry loop falls through with no connection, line 189 evaluates
`None.services()`, whose `AttributeError` is caught by the
`except Exception` at line 212, so the probe returns `{}` with no
disconnect (the `finally`'s guard sees `device_connection is None`). -/
def probe_device (found : List Device) (bdaddr : String) (blindOk : Bool)
    (conn : Nat → ConnResult) (g : GattStream) : List Event :=
  if found.any (fun d => d.mac == bdaddr) || blindOk then
    match connLoop conn 0 2 with
    | (ConnLoopOut.connected, n) =>
      List.replicate n Event.attempt ++ [Event.connected]
        ++ orchestrate true (Except.ok (enumerate g))
    | (ConnLoopOut.errOS e, n) =>
      List.replicate n Event.attempt ++ [Event.raisedOS e]
    | (ConnLoopOut.errTimeout, n) =>
      List.replicate n Event.attempt ++ [Event.raisedTimeout]
    | (ConnLoopOut.fellThrough, n) =>
      List.replicate n Event.attempt ++ orchestrate false (Except.ok [])
  else [Event.raisedValue]

/-! ## Web server radio lock (web_server.py lines 22-90)

Both radio routes share one skeleton around `radio_lock`:

    if radio_lock.locked(): return <busy>, 503
    async with radio_lock:
        try: <await radio work>; return <ok>, 200
        except Exception: return <error>, 500

Under the cooperative scheduler a task runs until its next suspension
point.  Between the `locked()` check and the `async with` acquisition
there is no suspension (an uncontended uasyncio `Lock.acquire` returns
without yielding), so check-plus-acquire is one atomic segment; the
awaited radio work and the release are later segments.  A handler task
is therefore a three-phase machine: `start` (check, then reject-busy or
acquire), `holding` (radio work under the lock; the `async with` exit
releases it on return and on exception alike), `done resp`. -/

inductive HPhase where
  | start
  | holding
  | done (resp : Nat)
  deriving DecidableEq, Repr

/-- One atomic segment of a handler given the current lock state.
`ok` is whether the radio work under the lock succeeds (200) or raises
into the `except` (500); either way the lock is released.  `none`
means the handler already finished. -/
def handlerStep (lock : Bool) (ok : Bool) : HPhase → Option (Bool × HPhase)
  | HPhase.start =>
    some (if lock then (lock, HPhase.done 503) else (true, HPhase.holding))
  | HPhase.holding => some (false, HPhase.done (if ok then 200 else 500))
  | HPhase.done _ => none

/-- Two concurrent requests (each either `/scan` or `/probe/...` — the
skeleton is the same) sharing `radio_lock`. -/
structure WebSys where
  lock : Bool
  p1 : HPhase
  p2 : HPhase
  deriving DecidableEq, Repr

/-- The scheduler runs one atomic segment of either task. -/
inductive WStep (ok1 ok2 : Bool) : WebSys → WebSys → Prop
  | left (s : WebSys) (l : Bool) (q : HPhase) :
      handlerStep s.lock ok1 s.p1 = some (l, q) → WStep ok1 ok2 s ⟨l, q, s.p2⟩
  | right (s : WebSys) (l : Bool) (q : HPhase) :
      handlerStep s.lock ok2 s.p2 = some (l, q) → WStep ok1 ok2 s ⟨l, s.p1, q⟩

/-- Both requests pending, lock free. -/
def webInit : WebSys := ⟨false, HPhase.start, HPhase.start⟩

/-- States an interleaving of the two requests can reach. -/
def WReach (ok1 ok2 : Bool) (s : WebSys) : Prop :=
  Relation.ReflTransGen (WStep ok1 ok2) webInit s

/-! ## Helper lemmas -/

theorem countP_replicate_eq {α : Type} (p : α → Bool) (n : Nat) (a : α) :
    List.countP p (List.replicate n a) = if p a then n else 0 := by
  induction n with
  | zero => simp
  | succ k ih =>
    simp only [List.replicate_succ, List.countP_cons, ih]
    split <;> simp_all

theorem connLoop_attempts_le (conn : Nat → ConnResult) :
    ∀ rem i, (connLoop conn i rem).2 ≤ rem := by
  intro rem
  induction rem with
  | zero => intro i; simp [connLoop]
  | succ k ih =>
    intro i
    simp only [connLoop]
    cases conn i with
    | success => simp
    | osErr e =>
      by_cases h1 : e = 107 ∨ e = 22
      · simp only [if_pos h1]
        have := ih (i + 1); omega
      · by_cases h2 : 0 < k
        · simp only [if_neg h1, if_pos h2]
          have := ih (i + 1); omega
        · simp only [if_neg h1, if_neg h2]; omega
    | timeout =>
      by_cases h2 : 0 < k
      · simp only [if_pos h2]
        have := ih (i + 1); omega
      · simp only [if_neg h2]; omega

theorem countEvt_append (p : Event → Bool) (l1 l2 : List Event) :
    countEvt p (l1 ++ l2) = countEvt p l1 + countEvt p l2 := by
  simp [countEvt, List.countP_append]

theorem countEvt_replicate_attempt (p : Event → Bool) (n : Nat) :
    countEvt p (List.replicate n Event.attempt)
      = if p Event.attempt then n else 0 :=
  countP_replicate_eq p n Event.attempt

/-- Every `probe_device` run has one of five shapes: invalid address,
success, connection `OSError`, connection timeout, or the
fell-through-with-no-connection run. -/
theorem probe_device_shape (found : List Device) (bdaddr : String)
    (blindOk : Bool) (conn : Nat → ConnResult) (g : GattStream) :
    probe_device found bdaddr blindOk conn g = [Event.raisedValue]
    ∨ (∃ n, n ≤ 2 ∧ probe_device found bdaddr blindOk conn g
          = List.replicate n Event.attempt
              ++ [Event.connected, Event.disconnected,
                  Event.returned (enumerate g)])
    ∨ (∃ n e, n ≤ 2 ∧ probe_device found bdaddr blindOk conn g
          = List.replicate n Event.attempt ++ [Event.raisedOS e])
    ∨ (∃ n, n ≤ 2 ∧ probe_device found bdaddr blindOk conn g
          = List.replicate n Event.attempt ++ [Event.raisedTimeout])
    ∨ (∃ n, n ≤ 2 ∧ probe_device found bdaddr blindOk conn g
          = List.replicate n Event.attempt ++ [Event.returned []]) := by
  unfold probe_device
  by_cases hf : (found.any (fun d => d.mac == bdaddr) || blindOk) = true
  · rw [if_pos hf]
    have hle := connLoop_attempts_le conn 2 0
    rcases hc : connLoop conn 0 2 with ⟨out, n⟩
    rw [hc] at hle
    simp only at hle
    cases out with
    | connected =>
      right; left
      exact ⟨n, hle, by simp [orchestrate]⟩
    | fellThrough =>
      right; right; right; right
      exact ⟨n, hle, by simp [orchestrate]⟩
    | errOS e =>
      right; right; left
      exact ⟨n, e, hle, by simp⟩
    | errTimeout =>
      right; right; right; left
      exact ⟨n, hle, by simp⟩
  · rw [if_neg hf]
    left; rfl

/-- Claim C1: every Link that `probe_device` successfully acquires is
released exactly once on every exit path (success, enumeration error,
connection error, malformed-address input), every run ends in a single
terminal transfer (a return or a raise), and the orchestration tail
places the release before the return and before any re-raise of an
enumeration error, so no path returns or raises with the connection
still held. -/
theorem c1_link_released_exactly_once (found : List Device) (bdaddr : String)
    (blindOk : Bool) (conn : Nat → ConnResult) (g : GattStream) :
    countEvt isConnectedEvt (probe_device found bdaddr blindOk conn g) ≤ 1
    ∧ countEvt isDisconnectedEvt (probe_device found bdaddr blindOk conn g)
        = countEvt isConnectedEvt (probe_device found bdaddr blindOk conn g)
    ∧ (∃ pre t, probe_device found bdaddr blindOk conn g = pre ++ [t]
         ∧ isTerminal t = true)
    ∧ (∀ acq d, orchestrate acq (Except.ok d)
         = if acq then [Event.disconnected, Event.returned d]
           else [Event.returned d])
    ∧ (∀ acq e, orchestrate acq (Except.error e)
         = if acq then [Event.disconnected, Event.raisedEnum e]
           else [Event.raisedEnum e]) := by
  refine ⟨?_, ?_, ?_, fun acq d => by cases acq <;> rfl,
    fun acq e => by cases acq <;> rfl⟩
  · rcases probe_device_shape found bdaddr blindOk conn g with
      h | ⟨n, _, h⟩ | ⟨n, e, _, h⟩ | ⟨n, _, h⟩ | ⟨n, _, h⟩ <;>
      rw [h] <;>
      simp [countEvt, List.countP_append, countP_replicate_eq,
        List.countP_cons, isConnectedEvt]
  · rcases probe_device_shape found bdaddr blindOk conn g with
      h | ⟨n, _, h⟩ | ⟨n, e, _, h⟩ | ⟨n, _, h⟩ | ⟨n, _, h⟩ <;>
      rw [h] <;>
      simp [countEvt, List.countP_append, countP_replicate_eq,
        List.countP_cons, isConnectedEvt, isDisconnectedEvt]
  · rcases probe_device_shape found bdaddr blindOk conn g with
      h | ⟨n, _, h⟩ | ⟨n, e, _, h⟩ | ⟨n, _, h⟩ | ⟨n, _, h⟩
    · exact ⟨[], Event.raisedValue, by rw [h]; rfl, rfl⟩
    · exact ⟨List.replicate n Event.attempt
          ++ [Event.connected, Event.disconnected],
        Event.returned (enumerate g), by rw [h]; simp, rfl⟩
    · exact ⟨List.replicate n Event.attempt, Event.raisedOS e,
        by rw [h], rfl⟩
    · exact ⟨List.replicate n Event.attempt, Event.raisedTimeout,
        by rw [h], rfl⟩
    · exact ⟨List.replicate n Event.attempt, Event.returned [],
        by rw [h], rfl⟩

/-- Claim C2 (amended): the connection phase of `probe_device` performs
at most `max_retries` = 2 connection attempts in total — the loop is
`for attempt in range(max_retries)` — so the call gives up after at
most 2 attempts, never 3. -/
theorem c2_at_most_two_attempts (found : List Device) (bdaddr : String)
    (blindOk : Bool) (conn : Nat → ConnResult) (g : GattStream) :
    countEvt isAttempt (probe_device found bdaddr blindOk conn g) ≤ 2 := by
  rcases probe_device_shape found bdaddr blindOk conn g with
    h | ⟨n, hn, h⟩ | ⟨n, e, hn, h⟩ | ⟨n, hn, h⟩ | ⟨n, hn, h⟩ <;>
    rw [h] <;>
    simp [countEvt, List.countP_append, countP_replicate_eq,
      List.countP_cons, isAttempt] <;>
    omega

/-- Claim C2, counterexample to the claim as stated: with every
connection attempt failing (here a non-transient `OSError` with
errno 1), the call gives up — it ends by raising the final `OSError` —
after exactly 2 connection attempts, not the claimed
`max_retries + 1 = 3`. -/
theorem c2_counterexample :
    probe_device [⟨"Dev", "AA", -50⟩] "AA" false (fun _ => ConnResult.osErr 1)
        ⟨[], none⟩
      = [Event.attempt, Event.attempt, Event.raisedOS 1]
    ∧ countEvt isAttempt
        (probe_device [⟨"Dev", "AA", -50⟩] "AA" false
          (fun _ => ConnResult.osErr 1) ⟨[], none⟩) = 2
    ∧ ¬ countEvt isAttempt
        (probe_device [⟨"Dev", "AA", -50⟩] "AA" false
          (fun _ => ConnResult.osErr 1) ⟨[], none⟩) = 3 :=
  ⟨by decide, by decide, by decide⟩

/-- Claim C3: the failing input is a device whose every connection
attempt fails with the transient radio-busy `OSError` errno 107.  The
retry loop then falls out with `device_connection = None`, the walk of
`None.services()` dies into the `except Exception` handler, and
`probe_device` returns `{}` — it proceeds past the connection phase
without a connection and propagates no typed connection failure, against
both the claim and the code's own retry messages. -/
theorem c3_busy_exhaustion_returns_empty_instead_of_raising :
    probe_device [⟨"Dev", "AA", -50⟩] "AA" false
        (fun _ => ConnResult.osErr 107)
        ⟨[ServiceEntry.good "0x180f" [CharEntry.good "0x2a19" 18] none], none⟩
      = [Event.attempt, Event.attempt, Event.returned []] := by
  decide

/-- A service entry the walk treats as malformed-and-skippable: a falsy
object, a `None` uuid (the guard at scanner.py line 191), or field
access raising one of the kinds the handler at line 207 names — the
exceptions Python raises when attribute access or `str()` meets
malformed data. -/
def isMalformedSvc : ServiceEntry → Bool
  | ServiceEntry.falsy => true
  | ServiceEntry.noneUuid => true
  | ServiceEntry.raises e => caughtPerService e
  | ServiceEntry.good _ _ _ => false

theorem procChars_skip (d : SvcDict) (k : String) (cs1 : List CharEntry)
    (c : CharEntry) (cs2 : List CharEntry) (hc : charRec c = none) :
    procChars d k (cs1 ++ c :: cs2) = procChars d k (cs1 ++ cs2) := by
  induction cs1 generalizing d with
  | nil => simp [procChars, hc]
  | cons c0 rest ih =>
    simp only [List.cons_append, procChars]
    cases h0 : charRec c0 <;> simp [h0, ih]

theorem enumSvcs_skip (pre : List ServiceEntry) (bad : ServiceEntry)
    (post : List ServiceEntry) (hb : isMalformedSvc bad = true) :
    ∀ d, enumSvcs d (pre ++ bad :: post) = enumSvcs d (pre ++ post) := by
  induction pre with
  | nil =>
    intro d
    cases bad with
    | falsy => rfl
    | noneUuid => rfl
    | raises e =>
      simp only [isMalformedSvc] at hb
      simp [enumSvcs, hb]
    | good u cs cerr => simp [isMalformedSvc] at hb
  | cons s0 rest ih =>
    intro d
    cases s0 with
    | falsy => simpa only [List.cons_append, enumSvcs] using ih d
    | noneUuid => simpa only [List.cons_append, enumSvcs] using ih d
    | raises e =>
      simp only [List.cons_append, enumSvcs]
      by_cases hce : caughtPerService e = true <;> simp [hce, ih]
    | good u cs cerr =>
      simp only [List.cons_append, enumSvcs]
      cases cerr with
      | none => exact ih _
      | some e =>
        by_cases hce : caughtPerService e = true <;> simp [hce, ih]

/-- Claim C4: the GATT walk never raises on a single malformed entry.
A characteristic entry that is falsy, has a `None` uuid or raises
anywhere (the bare `except: continue`) is skipped and the remaining
characteristics are still processed; a malformed service entry is
skipped and the remaining services are still processed; a peer whose
entire service sequence is unreadable yields the empty mapping, and a
probe of such a peer returns `{}` normally. -/
theorem c4_enumeration_skips_malformed :
    (∀ (d : SvcDict) (k : String) (cs1 : List CharEntry) (c : CharEntry)
        (cs2 : List CharEntry), charRec c = none →
        procChars d k (cs1 ++ c :: cs2) = procChars d k (cs1 ++ cs2))
    ∧ (∀ (d : SvcDict) (pre : List ServiceEntry) (bad : ServiceEntry)
        (post : List ServiceEntry), isMalformedSvc bad = true →
        enumSvcs d (pre ++ bad :: post) = enumSvcs d (pre ++ post))
    ∧ (∀ e : ExcKind, enumerate ⟨[], some e⟩ = [])
    ∧ (∀ (e : ExcKind) (found : List Device) (bdaddr : String)
        (blindOk : Bool),
        (found.any (fun d => d.mac == bdaddr) || blindOk) = true →
        probe_device found bdaddr blindOk (fun _ => ConnResult.success)
            ⟨[], some e⟩
          = [Event.attempt, Event.connected, Event.disconnected,
             Event.returned []]) := by
  refine ⟨fun d k cs1 c cs2 hc => procChars_skip d k cs1 c cs2 hc,
    fun d pre bad post hb => enumSvcs_skip pre bad post hb d,
    fun e => rfl, fun e found bdaddr blindOk hp => ?_⟩
  unfold probe_device
  rw [if_pos hp]
  rfl

/-- Claim C4, witness: a characteristic raising an uncaught-kind error
is skipped, a `ValueError`-raising service is skipped, a peer whose
service iterator raises at once enumerates to `{}`, and probing it
returns `{}`. -/
theorem c4_witness :
    procChars [] "s"
        ([CharEntry.good "c" 2]
          ++ CharEntry.raises ExcKind.otherError :: [CharEntry.good "d" 16])
      = procChars [] "s" ([CharEntry.good "c" 2] ++ [CharEntry.good "d" 16])
    ∧ enumSvcs []
        ([] ++ ServiceEntry.raises ExcKind.valueError
          :: [ServiceEntry.good "0x180f" [] none])
      = enumSvcs [] ([] ++ [ServiceEntry.good "0x180f" [] none])
    ∧ enumerate ⟨[], some ExcKind.typeError⟩ = []
    ∧ probe_device [⟨"Dev", "AA", -50⟩] "AA" false (fun _ => ConnResult.success)
        ⟨[], some ExcKind.typeError⟩
      = [Event.attempt, Event.connected, Event.disconnected,
         Event.returned []] :=
  ⟨c4_enumeration_skips_malformed.1 [] "s" [CharEntry.good "c" 2]
      (CharEntry.raises ExcKind.otherError) [CharEntry.good "d" 16] (by decide),
    c4_enumeration_skips_malformed.2.1 [] []
      (ServiceEntry.raises ExcKind.valueError)
      [ServiceEntry.good "0x180f" [] none] (by decide),
    c4_enumeration_skips_malformed.2.2.1 ExcKind.typeError,
    c4_enumeration_skips_malformed.2.2.2 ExcKind.typeError
      [⟨"Dev", "AA", -50⟩] "AA" false (by decide)⟩

/-- Claim C8 (amended): the property symbols of every characteristic
form a subsequence of the fixed order R, W, N, each present exactly
when its flag bit is set; and probing a peer advertising one service
`0x180f` with one Read+Notify characteristic yields the single-service
result whose stored display name is the resolved string
"0x180f (Battery Service)" (the raw uuid with the registry name in
parentheses) and whose characteristic has props `["R", "N"]`. -/
theorem c8_props_order_and_battery_scenario (p : Nat) :
    List.Sublist (propsOf p) ["R", "W", "N"]
    ∧ ("R" ∈ propsOf p ↔ p &&& FLAG_READ ≠ 0)
    ∧ ("W" ∈ propsOf p ↔ p &&& FLAG_WRITE ≠ 0)
    ∧ ("N" ∈ propsOf p ↔ p &&& FLAG_NOTIFY ≠ 0)
    ∧ probe_device [⟨"Dev", "AA:BB:CC:DD:EE:FF", -50⟩] "AA:BB:CC:DD:EE:FF"
        false (fun _ => ConnResult.success)
        ⟨[ServiceEntry.good "0x180f" [CharEntry.good "0x2a19" 18] none], none⟩
      = [Event.attempt, Event.connected, Event.disconnected,
         Event.returned [("0x180f", ⟨"0x180f (Battery Service)",
           [⟨"0x2a19", ["R", "N"]⟩]⟩)]] := by
  refine ⟨?_, ?_, ?_, ?_, by decide⟩ <;>
  · by_cases h1 : p &&& FLAG_READ ≠ 0 <;>
      by_cases h2 : p &&& FLAG_WRITE ≠ 0 <;>
      by_cases h3 : p &&& FLAG_NOTIFY ≠ 0 <;>
      simp [propsOf, h1, h2, h3]

/-- Claim C8, counterexample to the scenario as stated: the mapping
entry's `name` field is not the bare registry name "Battery Service" —
`_resolve_uuid` stores "0x180f (Battery Service)". -/
theorem c8_counterexample :
    probe_device [⟨"Dev", "AA:BB:CC:DD:EE:FF", -50⟩] "AA:BB:CC:DD:EE:FF"
        false (fun _ => ConnResult.success)
        ⟨[ServiceEntry.good "0x180f" [CharEntry.good "0x2a19" 18] none], none⟩
      ≠ [Event.attempt, Event.connected, Event.disconnected,
         Event.returned [("0x180f", ⟨"Battery Service",
           [⟨"0x2a19", ["R", "N"]⟩]⟩)]]
    ∧ resolve_uuid (some "0x180f") = "0x180f (Battery Service)"
    ∧ ("0x180f (Battery Service)" : String) ≠ "Battery Service" := by
  refine ⟨by decide, by decide, by decide⟩

theorem dictAppendChar_singleton (u nm : String) (acc : List CharRec)
    (r : CharRec) :
    dictAppendChar [(u, ⟨nm, acc⟩)] u r = [(u, ⟨nm, acc ++ [r]⟩)] := by
  simp [dictAppendChar]

theorem procChars_singleton (u nm : String) (cs : List CharEntry) :
    ∀ acc, procChars [(u, ⟨nm, acc⟩)] u cs
      = [(u, ⟨nm, acc ++ cs.filterMap charRec⟩)] := by
  induction cs with
  | nil => intro acc; simp [procChars]
  | cons c rest ih =>
    intro acc
    cases hc : charRec c with
    | none => simp [procChars, hc, ih acc, List.filterMap_cons]
    | some r =>
      simp only [procChars, hc]
      rw [dictAppendChar_singleton, ih (acc ++ [r])]
      simp [List.filterMap_cons, hc]

theorem dictInsert_singleton_same (u : String) (w v : SvcRec) :
    dictInsert [(u, w)] u v = [(u, v)] := by
  simp [dictInsert]

/-- Claim C10: when the service stream yields two services whose UUIDs
stringify to the same value, the dict assignment at scanner.py line 195
reinitialises the entry with an empty characteristic list on the second
occurrence, so the probe result holds a single entry for that UUID
containing only the last occurrence's characteristics. -/
theorem c10_duplicate_service_uuid_last_wins (u : String)
    (cs1 cs2 : List CharEntry) :
    probe_device [⟨"Dev", "AA", -50⟩] "AA" false (fun _ => ConnResult.success)
        ⟨[ServiceEntry.good u cs1 none, ServiceEntry.good u cs2 none], none⟩
      = [Event.attempt, Event.connected, Event.disconnected,
         Event.returned
           [(u, ⟨resolve_uuid (some u), cs2.filterMap charRec⟩)]] := by
  have henum : enumerate
      ⟨[ServiceEntry.good u cs1 none, ServiceEntry.good u cs2 none], none⟩
      = [(u, ⟨resolve_uuid (some u), cs2.filterMap charRec⟩)] := by
    simp only [enumerate, enumSvcs]
    rw [show dictInsert [] u ⟨resolve_uuid (some u), []⟩
        = [(u, ⟨resolve_uuid (some u), []⟩)] from by simp [dictInsert]]
    rw [procChars_singleton, dictInsert_singleton_same, procChars_singleton]
    simp
  have hcond : (([⟨"Dev", "AA", -50⟩] : List Device).any
      (fun d => d.mac == "AA") || false) = true := by decide
  unfold probe_device
  rw [if_pos hcond]
  rw [show connLoop (fun _ => ConnResult.success) 0 2
      = (ConnLoopOut.connected, 1) from rfl]
  simp [orchestrate, henum]

theorem map_noop {α : Type} (f : α → α) (l : List α)
    (h : ∀ x ∈ l, f x = x) : l.map f = l := by
  induction l with
  | nil => rfl
  | cons a as ih =>
    simp only [List.map_cons, h a (List.mem_cons_self a as)]
    rw [ih (fun x hx => h x (List.mem_cons_of_mem a hx))]

theorem updDev_mac (r : Report) (d : Device) : (updDev r d).mac = d.mac := rfl

theorem updateFirst_macs (r : Report) (l : List Device) :
    (updateFirst r l).map (fun d => d.mac) = l.map (fun d => d.mac) := by
  induction l with
  | nil => rfl
  | cons d ds ih =>
    by_cases h : d.mac = r.mac
    · simp [updateFirst, h, updDev_mac]
    · simp [updateFirst, h, ih]

theorem updateFirst_eq_map (r : Report) (l : List Device)
    (h : (l.map (fun d => d.mac)).Nodup) :
    updateFirst r l
      = l.map (fun d => if d.mac = r.mac then updDev r d else d) := by
  induction l with
  | nil => rfl
  | cons d ds ih =>
    simp only [List.map_cons, List.nodup_cons] at h
    obtain ⟨hnot, hnd⟩ := h
    by_cases hd : d.mac = r.mac
    · simp only [updateFirst, if_pos hd, List.map_cons]
      congr 1
      symm
      apply map_noop
      intro x hx
      have hxm : x.mac ≠ r.mac := by
        intro he
        exact hnot (by
          rw [hd, ← he]
          exact List.mem_map_of_mem (fun d => d.mac) hx)
      simp [hxm]
    · simp only [updateFirst, if_neg hd, List.map_cons]
      rw [ih hnd]

theorem lastQual_concat (th : Int) (m : String) (rs : List Report)
    (r : Report) :
    lastQualRssi th m (rs ++ [r])
      = if isQual th r && r.mac == m then some r.rssi
        else lastQualRssi th m rs := by
  unfold lastQualRssi
  rw [List.filter_append]
  by_cases h : (isQual th r && r.mac == m) = true
  · simp [h]
  · simp [List.filter_cons, h]

theorem scanFold_concat (no : Bool) (th : Int) (rs : List Report)
    (r : Report) :
    scanFold no th (rs ++ [r]) = scanStep no th (scanFold no th rs) r := by
  simp [scanFold, List.foldl_append]

theorem scan_invariant (no : Bool) (th : Int) (rs : List Report) :
    ((scanFold no th rs).map (fun d => d.mac)).Nodup
    ∧ ∀ d ∈ scanFold no th rs, lastQualRssi th d.mac rs = some d.rssi := by
  induction rs using List.reverseRecOn with
  | nil => simp [scanFold, lastQualRssi]
  | append_singleton rs r ih =>
    obtain ⟨hnd, hinv⟩ := ih
    rw [scanFold_concat]
    by_cases hth : r.rssi < th
    · have hq : isQual th r = false := by
        have : ¬ th ≤ r.rssi := not_le.mpr hth
        simp [isQual, this]
      have hstep : scanStep no th (scanFold no th rs) r = scanFold no th rs := by
        simp [scanStep, hth]
      rw [hstep]
      refine ⟨hnd, fun d hd => ?_⟩
      rw [lastQual_concat]
      simp only [hq, Bool.false_and, if_false]
      exact hinv d hd
    · by_cases hcon : r.connectable = true
      · have hq : isQual th r = true := by
          simp [isQual, hcon, not_lt.mp hth]
        by_cases hany : ((scanFold no th rs).any
            (fun d => d.mac == r.mac)) = true
        · have hstep : scanStep no th (scanFold no th rs) r
              = updateFirst r (scanFold no th rs) := by
            simp [scanStep, hth, hcon, hany]
          rw [hstep]
          refine ⟨by rw [updateFirst_macs]; exact hnd, fun x hx => ?_⟩
          rw [updateFirst_eq_map r _ hnd] at hx
          obtain ⟨d, hdmem, hdx⟩ := List.mem_map.mp hx
          by_cases hdm : d.mac = r.mac
          · rw [if_pos hdm] at hdx
            rw [lastQual_concat, ← hdx]
            simp [updDev_mac, updDev, hq, hdm]
          · rw [if_neg hdm] at hdx
            rw [lastQual_concat, ← hdx]
            have hne : (r.mac == d.mac) = false := by
              simp [Ne.symm hdm]
            simp only [hq, hne, Bool.true_and, if_false]
            exact hinv d hdmem
        · have hmac : ∀ d ∈ scanFold no th rs, d.mac ≠ r.mac := by
            intro d hd he
            exact hany (List.any_eq_true.mpr ⟨d, hd, by simp [he]⟩)
          by_cases hdrop : no ∧ effName r = "Unknown"
          · have hstep : scanStep no th (scanFold no th rs) r
                = scanFold no th rs := by
              unfold scanStep
              rw [if_neg hth, if_pos hcon, if_neg hany, if_pos hdrop]
            rw [hstep]
            refine ⟨hnd, fun d hd => ?_⟩
            rw [lastQual_concat]
            have hne : (r.mac == d.mac) = false := by
              simp only [beq_eq_false_iff_ne]
              exact Ne.symm (hmac d hd)
            simp only [hq, hne, Bool.true_and, if_false]
            exact hinv d hd
          · have hstep : scanStep no th (scanFold no th rs) r
                = scanFold no th rs ++ [⟨effName r, r.mac, r.rssi⟩] := by
              simp [scanStep, hth, hcon, hany, hdrop]
            rw [hstep]
            have hnotin : r.mac ∉ (scanFold no th rs).map (fun d => d.mac) := by
              intro hin
              obtain ⟨d, hd, he⟩ := List.mem_map.mp hin
              exact hmac d hd he
            constructor
            · rw [List.map_append]
              exact List.Nodup.append hnd (List.nodup_singleton _)
                (List.disjoint_singleton.mpr hnotin)
            · intro x hx
              rcases List.mem_append.mp hx with hx1 | hx2
              · rw [lastQual_concat]
                have hne : (r.mac == x.mac) = false := by
                  simp only [beq_eq_false_iff_ne]
                  exact Ne.symm (hmac x hx1)
                simp only [hq, hne, Bool.true_and, if_false]
                exact hinv x hx1
              · have hx2' : x = ⟨effName r, r.mac, r.rssi⟩ := by
                  simpa using hx2
                subst hx2'
                rw [lastQual_concat]
                simp [hq]
      · have hq : isQual th r = false := by
          simp [isQual, hcon]
        have hstep : scanStep no th (scanFold no th rs) r
            = scanFold no th rs := by
          simp [scanStep, hth, hcon]
        rw [hstep]
        refine ⟨hnd, fun d hd => ?_⟩
        rw [lastQual_concat]
        simp only [hq, Bool.false_and, if_false]
        exact hinv d hd

/-- Claim C5: after any scan the Device Table has at most one entry per
hardware address, every entry's stored rssi is the most recent reading
the scan body accepted for that address (at or above threshold and
connectable — weaker or non-connectable reports are discarded at
scanner.py lines 61 and 63), and the spec's scenario holds: threshold
−90 with reports (A,−95), (B,−80,"Sensor"), (B,−70,"Sensor") gives
exactly the one entry B with rssi −70. -/
theorem c5_table_unique_mac_latest_rssi (no : Bool) (th : Int)
    (rs : List Report) :
    ((scanFold no th rs).map (fun d => d.mac)).Nodup
    ∧ (∀ d ∈ scanFold no th rs, lastQualRssi th d.mac rs = some d.rssi)
    ∧ scanFold no (-90)
        [⟨"AA", -95, none, true⟩, ⟨"BB", -80, some "Sensor", true⟩,
         ⟨"BB", -70, some "Sensor", true⟩]
      = [⟨"Sensor", "BB", -70⟩] := by
  refine ⟨(scan_invariant no th rs).1, (scan_invariant no th rs).2, ?_⟩
  cases no <;> decide

/-- Claim C5, witness at the scenario input. -/
theorem c5_witness :
    ((scanFold true (-90)
        [⟨"AA", -95, none, true⟩, ⟨"BB", -80, some "Sensor", true⟩,
         ⟨"BB", -70, some "Sensor", true⟩]).map (fun d => d.mac)).Nodup
    ∧ lastQualRssi (-90) "BB"
        [⟨"AA", -95, none, true⟩, ⟨"BB", -80, some "Sensor", true⟩,
         ⟨"BB", -70, some "Sensor", true⟩] = some (-70) := by
  refine ⟨(c5_table_unique_mac_latest_rssi true (-90) _).1, ?_⟩
  have h := (c5_table_unique_mac_latest_rssi true (-90)
      [⟨"AA", -95, none, true⟩, ⟨"BB", -80, some "Sensor", true⟩,
       ⟨"BB", -70, some "Sensor", true⟩]).2.1
    ⟨"Sensor", "BB", -70⟩ (by decide)
  simpa using h

/-- The table lookup the scan body performs for a report's address
(first match, scanner.py lines 70-74). -/
def findMac (l : List Device) (m : String) : Option Device :=
  l.find? (fun d => d.mac == m)

theorem findMac_updateFirst (r : Report) (l : List Device) (m : String) :
    findMac (updateFirst r l) m
      = if m = r.mac then (findMac l m).map (updDev r) else findMac l m := by
  induction l with
  | nil => by_cases hm : m = r.mac <;> simp [findMac, updateFirst, hm]
  | cons d ds ih =>
    by_cases hd : d.mac = r.mac
    · by_cases hm : m = r.mac
      · have hp : (d.mac == m) = true := by simp [hd, hm]
        have hp2 : ((updDev r d).mac == m) = true := by
          rw [updDev_mac]; exact hp
        simp only [updateFirst, findMac]
        rw [if_pos hd]
        simp [hm, hd, updDev_mac]
      · have hp : (d.mac == m) = false := by
          simp only [beq_eq_false_iff_ne]
          rw [hd]; exact fun he => hm he.symm
        have hp2 : ((updDev r d).mac == m) = false := by
          rw [updDev_mac]; exact hp
        simp only [updateFirst, findMac]
        rw [if_pos hd]
        simp [hp, hp2, hm]
    · by_cases hp : (d.mac == m) = true
      · have hdm_eq : d.mac = m := by simpa using hp
        have hm : ¬ m = r.mac := fun he => hd (hdm_eq.trans he)
        simp only [updateFirst, findMac]
        rw [if_neg hd]
        simp [hp, hm]
      · have hp' : (d.mac == m) = false := by simpa using hp
        simp only [updateFirst, findMac]
        rw [if_neg hd]
        simp [hp']
        simpa [findMac] using ih

theorem findMac_append_of_some (l1 l2 : List Device) (m : String)
    (d : Device) (h : findMac l1 m = some d) :
    findMac (l1 ++ l2) m = some d := by
  simp only [findMac] at h ⊢
  rw [List.find?_append, h]
  rfl

theorem scanStep_name_preserved (no : Bool) (th : Int) (st : List Device)
    (r : Report) (m n : String) (hn : n ≠ "Unknown")
    (h : (findMac st m).map (fun d => d.name) = some n) :
    (findMac (scanStep no th st r) m).map (fun d => d.name) = some n := by
  unfold scanStep
  by_cases hth : r.rssi < th
  · rwa [if_pos hth]
  rw [if_neg hth]
  by_cases hcon : r.connectable = true
  · rw [if_pos hcon]
    by_cases hany : (st.any fun d => d.mac == r.mac) = true
    · rw [if_pos hany, findMac_updateFirst]
      by_cases hm : m = r.mac
      · rw [if_pos hm]
        obtain ⟨d, hd, hdn⟩ : ∃ d, findMac st m = some d ∧ d.name = n := by
          cases hf : findMac st m with
          | none => rw [hf] at h; simp at h
          | some d =>
            rw [hf] at h
            simp at h
            exact ⟨d, rfl, h⟩
        rw [hd]
        simp [updDev, hdn, hn]
      · rwa [if_neg hm]
    · rw [if_neg hany]
      by_cases hdrop : no ∧ effName r = "Unknown"
      · rwa [if_pos hdrop]
      · rw [if_neg hdrop]
        obtain ⟨d, hd, hdn⟩ : ∃ d, findMac st m = some d ∧ d.name = n := by
          cases hf : findMac st m with
          | none => rw [hf] at h; simp at h
          | some d =>
            rw [hf] at h
            simp at h
            exact ⟨d, rfl, h⟩
        rw [findMac_append_of_some st _ m d hd]
        simp [hdn]
  · rwa [if_neg hcon]

theorem scanSteps_name_preserved (no : Bool) (th : Int) (rs : List Report) :
    ∀ (st : List Device) (m n : String), n ≠ "Unknown" →
    (findMac st m).map (fun d => d.name) = some n →
    (findMac (rs.foldl (scanStep no th) st) m).map (fun d => d.name)
      = some n := by
  induction rs with
  | nil => intro st m n hn h; exact h
  | cons r rest ih =>
    intro st m n hn h
    simp only [List.foldl_cons]
    exact ih _ m n hn (scanStep_name_preserved no th st r m n hn h)

/-- Claim C6: with named-only filtering on, a table entry that has
acquired a real name is never evicted and its name is never replaced —
through any remaining report sequence it stays findable under its mac
with the same name; an anonymous report for an address already in the
table leaves the set of addresses unchanged and refreshes that entry's
rssi (keeping its name); an anonymous report for an address not in the
table leaves the table exactly as it was. -/
theorem c6_named_device_never_evicted (th : Int) (st : List Device)
    (rs : List Report) (r : Report) :
    (∀ m n, n ≠ "Unknown" →
      (findMac st m).map (fun d => d.name) = some n →
      (findMac (rs.foldl (scanStep true th) st) m).map (fun d => d.name)
        = some n)
    ∧ (effName r = "Unknown" → th ≤ r.rssi → r.connectable = true →
      (st.any fun d => d.mac == r.mac) = true →
      ((scanStep true th st r).map (fun d => d.mac)
          = st.map (fun d => d.mac)
        ∧ findMac (scanStep true th st r) r.mac
            = (findMac st r.mac).map (fun d => ⟨d.name, d.mac, r.rssi⟩)))
    ∧ (effName r = "Unknown" →
      (st.any fun d => d.mac == r.mac) = false →
      scanStep true th st r = st) := by
  refine ⟨fun m n hn h => scanSteps_name_preserved true th rs st m n hn h,
    ?_, ?_⟩
  · intro heff hth hcon hany
    have hstep : scanStep true th st r = updateFirst r st := by
      unfold scanStep
      rw [if_neg (not_lt.mpr hth), if_pos hcon, if_pos hany]
    refine ⟨by rw [hstep, updateFirst_macs], ?_⟩
    rw [hstep, findMac_updateFirst, if_pos rfl]
    cases findMac st r.mac with
    | none => rfl
    | some d => simp [updDev, heff]
  · intro heff hany
    unfold scanStep
    by_cases hth : r.rssi < th
    · rw [if_pos hth]
    · rw [if_neg hth]
      by_cases hcon : r.connectable = true
      · rw [if_pos hcon, if_neg (by simp [hany]), if_pos ⟨rfl, heff⟩]
      · rw [if_neg hcon]

/-- Claim C6, witness: a "Sensor" entry survives a later anonymous
re-advertisement of its address with its name intact, the anonymous
report refreshes its rssi without changing the address set, and an
anonymous report for a fresh address leaves the table untouched. -/
theorem c6_witness :
    (findMac (([⟨"BB", -60, none, true⟩] : List Report).foldl
        (scanStep true (-90)) [⟨"Sensor", "BB", -70⟩]) "BB").map
        (fun d => d.name) = some "Sensor"
    ∧ ((scanStep true (-90) [⟨"Sensor", "BB", -70⟩]
          ⟨"BB", -60, none, true⟩).map (fun d => d.mac)
        = ([⟨"Sensor", "BB", -70⟩] : List Device).map (fun d => d.mac)
      ∧ findMac (scanStep true (-90) [⟨"Sensor", "BB", -70⟩]
            ⟨"BB", -60, none, true⟩) "BB"
          = (findMac [⟨"Sensor", "BB", -70⟩] "BB").map
              (fun d => ⟨d.name, d.mac, -60⟩))
    ∧ scanStep true (-90) [⟨"Sensor", "BB", -70⟩] ⟨"CC", -60, none, true⟩
        = [⟨"Sensor", "BB", -70⟩] :=
  ⟨(c6_named_device_never_evicted (-90) [⟨"Sensor", "BB", -70⟩]
      [⟨"BB", -60, none, true⟩] ⟨"BB", -60, none, true⟩).1 "BB" "Sensor"
      (by decide) (by decide),
    (c6_named_device_never_evicted (-90) [⟨"Sensor", "BB", -70⟩]
      [⟨"BB", -60, none, true⟩] ⟨"BB", -60, none, true⟩).2.1
      (by decide) (by decide) (by decide) (by decide),
    (c6_named_device_never_evicted (-90) [⟨"Sensor", "BB", -70⟩]
      [] ⟨"CC", -60, none, true⟩).2.2 (by decide) (by decide)⟩

theorem runScanGo_found (no : Bool) (th : Int) :
    ∀ (rs : List Report) (st : List Device) (err : Option ExcKind),
    (runScanGo no th st rs err).1 = rs.foldl (scanStep no th) st := by
  intro rs
  induction rs with
  | nil => intro st err; cases err <;> rfl
  | cons r rest ih =>
    intro st err
    simpa only [runScanGo, List.foldl_cons] using
      ih (scanStep no th st r) err

/-- Claim C7 (amended): `run_scan` never raises — a scan-channel error
is caught at scanner.py line 90 — and it returns no value (the function
has no `return` statement, its Python value is `None`); the devices
accumulated from the reports delivered before the scan completed or
failed are left in the module-global `found_devices`, where the caller
reads them, so a scan failure is non-fatal and the results gathered
survive. -/
theorem c7_run_scan_swallows_errors (no : Bool) (th : Int)
    (rs : List Report) (err : Option ExcKind) :
    (run_scan no th rs err).raised = false
    ∧ (run_scan no th rs err).retVal = none
    ∧ (run_scan no th rs err).found = scanFold no th rs := by
  refine ⟨rfl, rfl, ?_⟩
  simp [run_scan, scanFold, runScanGo_found]

/-- Claim C7, counterexample to the claim as stated: `run_scan` does
not return the accumulated device set to its caller — its return value
is `None` even when devices were found; they are only reachable through
the module-global `found_devices`. -/
theorem c7_counterexample :
    (run_scan true (-90) [⟨"BB", -80, some "Sensor", true⟩] none).retVal
        = none
    ∧ (run_scan true (-90) [⟨"BB", -80, some "Sensor", true⟩] none).found
        = [⟨"Sensor", "BB", -80⟩]
    ∧ (run_scan true (-90) [⟨"BB", -80, some "Sensor", true⟩] none).retVal
        ≠ some ((run_scan true (-90)
            [⟨"BB", -80, some "Sensor", true⟩] none).found) :=
  ⟨rfl, by decide, by decide⟩

/-- The lock reflects exactly whether some handler is in its
under-the-lock phase, and never both at once. -/
def webInv (s : WebSys) : Prop :=
  s.lock = (s.p1 == HPhase.holding || s.p2 == HPhase.holding)
  ∧ ¬(s.p1 = HPhase.holding ∧ s.p2 = HPhase.holding)

theorem handlerStep_cases (lock ok : Bool) (ph : HPhase) (l : Bool)
    (q : HPhase) (h : handlerStep lock ok ph = some (l, q)) :
    (ph = HPhase.start ∧ lock = true ∧ l = true ∧ q = HPhase.done 503)
    ∨ (ph = HPhase.start ∧ lock = false ∧ l = true ∧ q = HPhase.holding)
    ∨ (ph = HPhase.holding ∧ l = false
        ∧ q = HPhase.done (if ok then 200 else 500)) := by
  cases ph with
  | start =>
    cases lock with
    | true =>
      simp [handlerStep] at h
      obtain ⟨h1, h2⟩ := h
      exact Or.inl ⟨rfl, rfl, by simp [h1], by simp [h2]⟩
    | false =>
      simp [handlerStep] at h
      obtain ⟨h1, h2⟩ := h
      exact Or.inr (Or.inl ⟨rfl, rfl, by simp [h1], by simp [h2]⟩)
  | holding =>
    simp [handlerStep] at h
    obtain ⟨h1, h2⟩ := h
    exact Or.inr (Or.inr ⟨rfl, by simp [h1], by simp [h2]⟩)
  | done r0 => simp [handlerStep] at h

theorem webReach_inv (ok1 ok2 : Bool) (s : WebSys)
    (h : WReach ok1 ok2 s) : webInv s := by
  induction h with
  | refl => exact ⟨rfl, by simp [webInit]⟩
  | tail hab hstep ih =>
    rename_i s2 s3
    obtain ⟨ih1, ih2⟩ := ih
    cases hstep with
    | left l q hstep2 =>
      rcases handlerStep_cases s2.lock ok1 s2.p1 l q hstep2 with
        ⟨hph, hlock, hl, hq⟩ | ⟨hph, hlock, hl, hq⟩ | ⟨hph, hl, hq⟩
      · subst hl hq
        have hp2 : s2.p2 = HPhase.holding := by
          rw [hph, hlock] at ih1
          simpa using ih1.symm
        simp [webInv, hp2]
      · subst hl hq
        have hp2 : s2.p2 ≠ HPhase.holding := by
          rw [hph, hlock] at ih1
          intro he
          rw [he] at ih1
          simp at ih1
        have hb : (s2.p2 == HPhase.holding) = false :=
          beq_eq_false_iff_ne.mpr hp2
        simp [webInv, hp2]
      · subst hl hq
        have hp2 : s2.p2 ≠ HPhase.holding := fun he => ih2 ⟨hph, he⟩
        have hb : (s2.p2 == HPhase.holding) = false :=
          beq_eq_false_iff_ne.mpr hp2
        simp [webInv, hb, hp2]
    | right l q hstep2 =>
      rcases handlerStep_cases s2.lock ok2 s2.p2 l q hstep2 with
        ⟨hph, hlock, hl, hq⟩ | ⟨hph, hlock, hl, hq⟩ | ⟨hph, hl, hq⟩
      · subst hl hq
        have hp1 : s2.p1 = HPhase.holding := by
          rw [hph, hlock] at ih1
          simpa using ih1.symm
        simp [webInv, hp1]
      · subst hl hq
        have hp1 : s2.p1 ≠ HPhase.holding := by
          rw [hph, hlock] at ih1
          intro he
          rw [he] at ih1
          simp at ih1
        have hb : (s2.p1 == HPhase.holding) = false :=
          beq_eq_false_iff_ne.mpr hp1
        simp [webInv, hp1]
      · subst hl hq
        have hp1 : s2.p1 ≠ HPhase.holding := fun he => ih2 ⟨he, hph⟩
        have hb : (s2.p1 == HPhase.holding) = false :=
          beq_eq_false_iff_ne.mpr hp1
        simp [webInv, hb, hp1]

/-- Claim C9: in every interleaving of two concurrent radio-route
requests, at most one is ever inside its under-the-lock phase (so at
most one of {scan, probe} is active system-wide), and a request taking
its first step while the lock is held moves in that single step
straight to the finished state with response 503 — there is no blocked
or queued intermediate: either the request has not been scheduled yet
(still `start`) or it is already rejected. -/
theorem c9_radio_lock_mutual_exclusion (ok1 ok2 : Bool) (s : WebSys)
    (h : WReach ok1 ok2 s) :
    ¬(s.p1 = HPhase.holding ∧ s.p2 = HPhase.holding)
    ∧ (∀ s2, WStep ok1 ok2 s s2 → s.lock = true → s.p2 = HPhase.start →
        s2.p2 = HPhase.start ∨ s2.p2 = HPhase.done 503)
    ∧ (∀ s2, WStep ok1 ok2 s s2 → s.lock = true → s.p1 = HPhase.start →
        s2.p1 = HPhase.start ∨ s2.p1 = HPhase.done 503) := by
  refine ⟨(webReach_inv ok1 ok2 s h).2, ?_, ?_⟩
  · intro s2 hstep hlock hp2
    cases hstep with
    | left l q h2 => exact Or.inl hp2
    | right l q h2 =>
      rw [hp2, hlock] at h2
      simp [handlerStep] at h2
      obtain ⟨h21, h22⟩ := h2
      exact Or.inr (by simp [h22])
  · intro s2 hstep hlock hp1
    cases hstep with
    | right l q h2 => exact Or.inl hp1
    | left l q h2 =>
      rw [hp1, hlock] at h2
      simp [handlerStep] at h2
      obtain ⟨h21, h22⟩ := h2
      exact Or.inr (by simp [h22])

/-- Claim C9, witness: from the initial state, the first request
acquires the lock; the state with one holder is reachable, mutual
exclusion holds there, and the second request's own first step from
that state ends it with the 503 rejection. -/
theorem c9_witness :
    (¬((⟨true, HPhase.holding, HPhase.start⟩ : WebSys).p1 = HPhase.holding
        ∧ (⟨true, HPhase.holding, HPhase.start⟩ : WebSys).p2
            = HPhase.holding))
    ∧ ((⟨true, HPhase.holding, HPhase.done 503⟩ : WebSys).p2 = HPhase.start
        ∨ (⟨true, HPhase.holding, HPhase.done 503⟩ : WebSys).p2
            = HPhase.done 503) := by
  have hreach : WReach true true ⟨true, HPhase.holding, HPhase.start⟩ :=
    Relation.ReflTransGen.single
      (WStep.left webInit true HPhase.holding rfl)
  have h := c9_radio_lock_mutual_exclusion true true _ hreach
  refine ⟨h.1, ?_⟩
  exact h.2.1 ⟨true, HPhase.holding, HPhase.done 503⟩
    (WStep.right _ true (HPhase.done 503) rfl) rfl rfl

end BleProber
